import Mathlib

/-!
Verification of the hypercorn HTTP/1.1 + WebSocket protocol engine
(`hypercorn/protocol/h11.py` and `hypercorn/trio/wsproto.py`).

The engine is shallowly embedded: Python strings become `List Char`,
the `h11` wire parser (an external library) is modelled from the spec's
WireParser description as a scripted stream of framing events together
with an explicit our-state value, and the engine's coroutine effects
(bytes written, `Closed`/`Updated` signals, stream-adapter deliveries,
readiness-gate operations) are recorded as an explicit effect trace.
-/

namespace Hypercorn

/-! ## Python string primitives

Python `str` values are embedded as `List Char`.  `lower`/`upper`/
`strip`/`split(",")` are the operations `h11.py` uses; they are embedded
with the core ASCII case maps (`Char.toLower`/`Char.toUpper`), matching
Python's behaviour on the ASCII header data h11 delivers. -/

abbrev PyStr := List Char

def ofStr (s : String) : PyStr := s.data

def pyLower (s : PyStr) : PyStr := s.map Char.toLower

def pyUpper (s : PyStr) : PyStr := s.map Char.toUpper

/-- Python `str.strip()`: drop whitespace from both ends. -/
def pyStrip (s : PyStr) : PyStr :=
  ((s.dropWhile Char.isWhitespace).reverse.dropWhile Char.isWhitespace).reverse

/-- Python `str.split(",")`: split on every comma; `"".split(",") == [""]`. -/
def splitComma : PyStr → List PyStr
  | [] => [[]]
  | c :: rest =>
    if c = ',' then [] :: splitComma rest
    else
      match splitComma rest with
      | [] => [[c]]
      | t :: ts => (c :: t) :: ts

def strUpgrade : PyStr := ofStr "upgrade"
def strConnection : PyStr := ofStr "connection"
def strWebsocket : PyStr := ofStr "websocket"
def strGET : PyStr := ofStr "GET"
def strH11 : PyStr := ofStr "h11"

/-! ## Data model -/

/-- An `h11.Request` framing event: method, target and headers as raw
(already `.decode()`d) strings. The constant `stream_id` (always 1 for
HTTP/1.1) is omitted. -/
structure RequestData where
  method : PyStr
  target : PyStr
  headers : List (PyStr × PyStr)
  http_version : PyStr
deriving DecidableEq

/-- Application-facing stream events (`protocol/events.py`), as consumed
and produced by `H11Protocol`. -/
inductive StreamEvent where
  | request (method : PyStr) (headers : List (PyStr × PyStr))
      (http_version : PyStr) (raw_path : PyStr)
  | body (data : PyStr)
  | endBody
  | data (data : PyStr)
  | endData
  | response (status_code : Nat) (headers : List (PyStr × PyStr))
  | streamClosed
deriving DecidableEq

/-- The sendable h11 events (`H11SendableEvent`).  `connection.send`
serializes these to wire bytes; the serialization itself is the external
library's concern, so effects record the event sent. -/
inductive H11Sendable where
  | response (status_code : Nat) (headers : List (PyStr × PyStr))
  | informationalResponse (status_code : Nat) (headers : List (PyStr × PyStr))
  | data (d : PyStr)
  | endOfMessage
deriving DecidableEq

/-- Framing events produced by `connection.next_event()`.  `wsData` is
the pass-through `events.Data` produced by the `H11WSConnection` shim
(distinct from `h11.Data`, which becomes `body`). -/
inductive FramingEvent where
  | request (r : RequestData)
  | data (d : PyStr)
  | endOfMessage
  | wsData (d : PyStr)
  | paused
  | connectionClosed
  | needData
deriving DecidableEq

/-- Result of one `next_event()` call: a framing event, or the
`h11.RemoteProtocolError` raised on malformed input. -/
inductive ParseResult where
  | ok (e : FramingEvent)
  | remoteProtocolError
deriving DecidableEq

/-- Modelled from the spec: the WireParser's our-state side
(`{Idle, SendResponse, Done, MustClose, Closed, Error}`, spec section 3).
The h11 library holding this state is not under src/. -/
inductive WireState where
  | idle
  | sendResponse
  | done
  | mustClose
  | closed
  | wireError
deriving DecidableEq

/-- Modelled from the spec: the h11 `Connection` object (external
library, not under src/).  Byte-level parsing is abstracted as a script:
the stream of `next_event()` results the parser produces for the bytes
received.  `next_cycle_ok` abstracts whether `start_next_cycle()`'s
preconditions (their-state side also cleanly `Done`, spec section 4.1)
hold. -/
structure HttpConn where
  script : List ParseResult
  they_are_waiting_for_100_continue : Bool
  our_state : WireState
  next_cycle_ok : Bool
deriving DecidableEq

/-- The connection slot of `H11Protocol`: either the h11 parser model or
the `H11WSConnection` pass-through shim installed on WebSocket upgrade
(the shim's state is its byte buffer). -/
inductive Conn where
  | http (c : HttpConn)
  | h11ws (buffer : PyStr)
deriving DecidableEq

/-- `our_state`: the shim's class attribute is `None`
("Prevents recycling the connection"). -/
def Conn.our_state : Conn → Option WireState
  | .http c => some c.our_state
  | .h11ws _ => none

/-- `they_are_waiting_for_100_continue`: the shim's class attribute is
`False`. -/
def Conn.waiting100 : Conn → Bool
  | .http c => c.they_are_waiting_for_100_continue
  | .h11ws _ => false

/-- Modelled from the spec: state mutation of the WireParser's `send`
(spec section 4.1): serializing a response begins the response cycle,
`EndOfMessage` transitions our-state to `Done`, and sending any
(informational) response clears the 100-continue flag (spec: the peer
is waiting "when … no informational response has been sent yet"). -/
def HttpConn.send (c : HttpConn) (e : H11Sendable) : HttpConn :=
  match e with
  | .response _ _ =>
    { c with they_are_waiting_for_100_continue := false, our_state := .sendResponse }
  | .informationalResponse _ _ =>
    { c with they_are_waiting_for_100_continue := false }
  | .data _ => c
  | .endOfMessage => { c with our_state := .done }

/-- `send` on the connection slot: the shim delegates to the wrapped h11
connection purely for serialization, leaving no modelled state. -/
def Conn.send (conn : Conn) (e : H11Sendable) : Conn :=
  match conn with
  | .http c => .http (c.send e)
  | .h11ws b => .h11ws b

/-- `next_event()`.  For the h11 model it yields the next scripted
result (or `NEED_DATA` when the script is exhausted).  For the
`H11WSConnection` shim it is the source's `next_event` (src lines
40-46): all buffered bytes as one opaque `Data` event, emptying the
buffer, or `NEED_DATA` when the buffer is empty. -/
def Conn.next_event : Conn → ParseResult × Conn
  | .http c =>
    match c.script with
    | [] => (.ok .needData, .http c)
    | r :: rest => (r, .http { c with script := rest })
  | .h11ws b =>
    if b.isEmpty then (.ok .needData, .h11ws b)
    else (.ok (.wsData b), .h11ws [])

/-- Which stream adapter is active (`HTTPStream` / `WSStream`). -/
inductive StreamKind where
  | http
  | ws
deriving DecidableEq

/-- The `H11Protocol` state: connection slot, `can_read` readiness gate
(`true` = set/open; a fresh event starts unset), the optional active
stream, and the `response`/`scope` attributes cleared on recycle. -/
structure ProtoState where
  connection : Conn
  can_read : Bool
  stream : Option StreamKind
  response : Option Unit
  scope : Option Unit
deriving DecidableEq

/-- One observable engine action.  `rawData e` is `RawData` written to
the transport holding the serialization of h11 event `e`; `rawBytes` is
`RawData` written directly, bypassing the parser; `toStream` is a
delivery to the active stream adapter's `handle`. -/
inductive Effect where
  | rawData (e : H11Sendable)
  | rawBytes (d : PyStr)
  | closed
  | updated
  | toStream (e : StreamEvent)
  | gateClear
  | gateWait
  | gateSet
deriving DecidableEq

/-- `name.decode().strip().lower()` (src line 150). -/
def sanitised_name (n : PyStr) : PyStr := pyLower (pyStrip n)

/-- The last header whose sanitised name equals `name`, as the spec's
"the request's `Connection` header" reading for duplicate headers:
`[]` when absent, otherwise the raw value of the final occurrence. -/
def last_header_value (name : PyStr) (headers : List (PyStr × PyStr)) : PyStr :=
  match headers.reverse.find? (fun nv => sanitised_name nv.1 == name) with
  | some nv => nv.2
  | none => []

/-- How many headers carry the sanitised name `name`. -/
def count_headers (name : PyStr) (headers : List (PyStr × PyStr)) : Nat :=
  (headers.filter fun nv => sanitised_name nv.1 == name).length

/-- Case-insensitive string comparison, as the spec's "compared
case-insensitively". -/
abbrev ci_eq (a b : PyStr) : Prop := pyLower a = pyLower b

/-! ## Upgrade detection (`H11Protocol._create_stream`, src lines 146-190) -/

/-- The header scan of src lines 147-154: fold over the headers in
order, storing the stripped value of each `Upgrade` / `Connection`
header (a later header of the same name overwrites an earlier one). -/
def extract_upgrade_connection (headers : List (PyStr × PyStr)) : PyStr × PyStr :=
  headers.foldl
    (fun acc nv =>
      if sanitised_name nv.1 = strUpgrade then (pyStrip nv.2, acc.2)
      else if sanitised_name nv.1 = strConnection then (acc.1, pyStrip nv.2)
      else acc)
    ([], [])

/-- The upgrade test of src lines 156-161. -/
def ws_upgrade_request (request : RequestData) : Bool :=
  let vals := extract_upgrade_connection request.headers
  let connection_tokens := splitComma (pyLower vals.2)
  (connection_tokens.any fun token => pyStrip token == strUpgrade)
    && (pyLower vals.1 == strWebsocket)
    && (pyUpper request.method == strGET)

/-- The upgrade test as a function of an upgrade-header value, a
connection-header value and a method (the body of src lines 156-161). -/
def upgrade_decision (upgrade_value connection_value method : PyStr) : Bool :=
  ((splitComma (pyLower connection_value)).any fun token => pyStrip token == strUpgrade)
    && (pyLower upgrade_value == strWebsocket)
    && (pyUpper method == strGET)

/-- The spec's wording of the `Connection` condition: the header value,
"split on commas, trim whitespace, case-insensitive compare", contains
the token `upgrade`. -/
abbrev spec_connection_contains_upgrade (v : PyStr) : Prop :=
  ∃ t ∈ splitComma v, ci_eq (pyStrip t) strUpgrade

/-- The spec's three-way upgrade condition, worded from the claim: the
`Connection` header contains the token `upgrade`, the `Upgrade` header
case-insensitively equals `websocket`, and the method case-insensitively
equals `GET`. -/
abbrev spec_selects_websocket (r : RequestData) : Prop :=
  spec_connection_contains_upgrade (last_header_value strConnection r.headers)
    ∧ ci_eq (last_header_value strUpgrade r.headers) strWebsocket
    ∧ ci_eq r.method strGET

/-- The `Request` stream event delivered to the chosen adapter
(src lines 182-190): method uppercased, headers/version/target as
parsed. -/
def delivered_request (r : RequestData) : StreamEvent :=
  .request (pyUpper r.method) r.headers r.http_version r.target

/-- Which stream adapter `_create_stream` constructs. -/
def create_stream_kind (r : RequestData) : StreamKind :=
  if ws_upgrade_request r then .ws else .http

/-! ## Outgoing events -/

/-- Modelled from the spec: `response_headers` (`hypercorn/utils.py`,
not under src/) — "a server identification string inserted into a
standard response header on every outgoing HTTP response"
(spec section 6). -/
def response_headers (protocol : PyStr) : List (PyStr × PyStr) :=
  [(ofStr "server", ofStr "hypercorn-" ++ protocol)]

/-- The fixed server-identifying header this engine injects. -/
def server_header : PyStr × PyStr := (ofStr "server", ofStr "hypercorn-h11")

/-- `_send_h11_event` (src lines 192-194): serialize through the
connection (mutating it) and write the bytes to the transport. -/
def send_h11_event (st : ProtoState) (e : H11Sendable) : ProtoState × List Effect :=
  ({ st with connection := st.connection.send e }, [.rawData e])

/-- The headers of the engine-generated error response
(src lines 200-202). -/
def error_response_headers : List (PyStr × PyStr) :=
  [(ofStr "content-length", ofStr "0"), (ofStr "connection", ofStr "close")]
    ++ response_headers strH11

/-- `_send_error_response` (src lines 196-205). -/
def send_error_response (st : ProtoState) (status : Nat) : ProtoState × List Effect :=
  let r1 := send_h11_event st (.response status error_response_headers)
  let r2 := send_h11_event r1.1 .endOfMessage
  (r2.1, r1.2 ++ r2.2)

/-- The informational response emitted when the peer waits for
100-continue (src lines 118-121). -/
def continue_response : H11Sendable :=
  .informationalResponse 100 (response_headers strH11)

/-- Effects of the 100-continue check at the top of each loop
iteration. -/
def pre100effects (w : Bool) : List Effect :=
  if w then [.rawData continue_response] else []

/-! ## The draining loop (`H11Protocol._handle_events`, src lines 116-144) -/

/-- The drain loop for an HTTP connection, by recursion on the parser
script.  Per iteration: emit the 100-continue response if the parser
reports the peer waiting (clearing the flag), then dispatch the next
framing event.  A `Request` creates the stream adapter — on WebSocket
upgrade the connection slot is replaced by the `H11WSConnection` shim,
whose buffer starts empty, so the following iteration yields `NEED_DATA`
and the loop breaks.  `PAUSED` clears the readiness gate and suspends;
`ConnectionClosed`/`NEED_DATA` break; `RemoteProtocolError` triggers the
400 error response, a `Closed` signal, and breaks. -/
def handle_events_loop (script : List ParseResult) (w : Bool) (os : WireState)
    (nok : Bool) (st : ProtoState) : ProtoState × List Effect :=
  match script with
  | [] =>
    ({ st with connection := .http ⟨[], false, os, nok⟩ }, pre100effects w)
  | .remoteProtocolError :: rest =>
    let st1 := { st with connection := .http ⟨rest, false, os, nok⟩ }
    let r := send_error_response st1 400
    (r.1, pre100effects w ++ r.2 ++ [.closed])
  | .ok ev :: rest =>
    match ev with
    | .request r =>
      if ws_upgrade_request r then
        ({ st with connection := .h11ws [], stream := some .ws },
          pre100effects w ++ [.toStream (delivered_request r)])
      else
        let res := handle_events_loop rest false os nok { st with stream := some .http }
        (res.1, pre100effects w ++ .toStream (delivered_request r) :: res.2)
    | .data d =>
      let res := handle_events_loop rest false os nok st
      (res.1, pre100effects w ++ .toStream (.body d) :: res.2)
    | .endOfMessage =>
      let res := handle_events_loop rest false os nok st
      (res.1, pre100effects w ++ .toStream .endBody :: res.2)
    | .wsData d =>
      let res := handle_events_loop rest false os nok st
      (res.1, pre100effects w ++ .toStream (.data d) :: res.2)
    | .paused =>
      ({ st with connection := .http ⟨rest, false, os, nok⟩, can_read := false },
        pre100effects w ++ [.gateClear, .gateWait])
    | .connectionClosed =>
      ({ st with connection := .http ⟨rest, false, os, nok⟩ }, pre100effects w)
    | .needData =>
      ({ st with connection := .http ⟨rest, false, os, nok⟩ }, pre100effects w)

/-- `_handle_events`.  On the pass-through shim the 100-continue flag is
constantly `False`; a non-empty buffer yields exactly one opaque `Data`
delivery, after which `NEED_DATA` breaks the loop. -/
def handle_events (st : ProtoState) : ProtoState × List Effect :=
  match st.connection with
  | .http c =>
    handle_events_loop c.script c.they_are_waiting_for_100_continue
      c.our_state c.next_cycle_ok st
  | .h11ws b =>
    if b.isEmpty then (st, [])
    else ({ st with connection := .h11ws [] }, [.toStream (.data b)])

/-! ## Recycling (`_maybe_recycle`, src lines 207-222) -/

/-- `_close_stream` (src lines 224-227). -/
def close_stream (st : ProtoState) : ProtoState × List Effect :=
  match st.stream with
  | some _ => ({ st with stream := none }, [.toStream .streamClosed])
  | none => (st, [])

/-- `_maybe_recycle`: close the stream; if `our_state is DONE` attempt
`start_next_cycle()` — on success clear `response`/`scope`, set the
gate, resume the drain loop and signal `Updated`; on
`LocalProtocolError` signal `Closed` (the gate is not touched); if
`our_state` is not `DONE` (including the shim's `None`), set the gate
and signal `Closed`. -/
def maybe_recycle (st : ProtoState) : ProtoState × List Effect :=
  let r1 := close_stream st
  let st1 := r1.1
  match st1.connection with
  | .http c =>
    if c.our_state = .done then
      if c.next_cycle_ok then
        let st2 : ProtoState :=
          { st1 with
            connection := .http { c with our_state := .idle },
            response := none, scope := none, can_read := true }
        let r2 := handle_events st2
        (r2.1, r1.2 ++ [.gateSet] ++ r2.2 ++ [.updated])
      else
        (st1, r1.2 ++ [.closed])
    else
      ({ st1 with can_read := true }, r1.2 ++ [.gateSet, .closed])
  | .h11ws _ =>
    ({ st1 with can_read := true }, r1.2 ++ [.gateSet, .closed])

/-! ## Outgoing translation (`H11Protocol.stream_send`, src lines 90-114) -/

def stream_send (st : ProtoState) (event : StreamEvent) : ProtoState × List Effect :=
  match event with
  | .response status headers =>
    if 200 ≤ status then
      send_h11_event st (.response status (headers ++ response_headers strH11))
    else
      send_h11_event st (.informationalResponse status (headers ++ response_headers strH11))
  | .body d => send_h11_event st (.data d)
  | .endBody =>
    let r1 := send_h11_event st .endOfMessage
    let r2 := maybe_recycle r1.1
    (r2.1, r1.2 ++ r2.2)
  | .data d => (st, [.rawBytes d])
  | .endData => maybe_recycle st
  | .streamClosed => maybe_recycle st
  | .request _ _ _ _ => (st, [])

/-! ## WebSocket message assembly (`trio/wsproto.py` + the spec's MessageBuffer) -/

/-- Modelled from the spec: `WebsocketBuffer`
(`hypercorn/common/wsproto.py`, not under src/) — "accumulates ordered
byte chunks for the current in-flight message plus a running size
counter" (spec section 3); `extend` "appends the frame's payload to the
buffer; raises a 'frame too large' failure the instant the cumulative
size exceeds the configured maximum" (spec section 4.4). -/
structure WebsocketBuffer where
  value : List Nat
  max_length : Nat
deriving DecidableEq

/-- `extend`: `none` models the `FrameTooLarge` exception, raised as
soon as the running size exceeds `max_length`. -/
def WebsocketBuffer.extend (b : WebsocketBuffer) (data : List Nat) :
    Option WebsocketBuffer :=
  let v := b.value ++ data
  if b.max_length < v.length then none else some { b with value := v }

/-- Modelled from the spec: `to_message` returns the assembled message
(spec section 4.4). -/
def WebsocketBuffer.to_message (b : WebsocketBuffer) : List Nat := b.value

/-- Modelled from the spec: `clear` resets the buffer after a completed
message. -/
def WebsocketBuffer.clear (b : WebsocketBuffer) : WebsocketBuffer :=
  { b with value := [] }

/-- The wsproto events `WebsocketServer.read_messages` dispatches on
(src lines 74-88); events of any other type fall through the loop. -/
inductive WsprotoEvent where
  | dataReceived (data : List Nat) (message_finished : Bool)
  | connectionClosed
  | otherEvent
deriving DecidableEq

/-- Observable actions of the read loop: a close frame sent with a code
(`self.connection.close(code)`), and `app_queue.put_nowait` of a
disconnect event or an assembled message. -/
inductive WSAction where
  | closeConn (code : Nat)
  | enqueueDisconnect
  | enqueueMessage (data : List Nat)
deriving DecidableEq

/-- The event-dispatch of one `read_messages` batch (src lines 74-88).
Returns the actions performed, the buffer state, whether `MustCloseError`
was raised, and the events left unprocessed when it was (the `raise`
aborts the `for` loop at that point). -/
def read_messages_events (events : List WsprotoEvent) (b : WebsocketBuffer) :
    List WSAction × WebsocketBuffer × Bool × List WsprotoEvent :=
  match events with
  | [] => ([], b, false, [])
  | .dataReceived d fin :: rest =>
    match b.extend d with
    | none => ([.closeConn 1009, .enqueueDisconnect], b, true, rest)
    | some b1 =>
      if fin then
        let res := read_messages_events rest b1.clear
        (.enqueueMessage b1.to_message :: res.1, res.2)
      else
        read_messages_events rest b1
  | .connectionClosed :: rest => ([.enqueueDisconnect], b, true, rest)
  | .otherEvent :: rest => read_messages_events rest b

/-! ## A pipelined run (driver for the temporal claim)

HTTP/1.1 pipelining: the parser yields each request's events, then
`PAUSED` while the engine still owes the previous response.  The
cooperative schedule is sequentialized: the drain loop runs until it
suspends, then the application's response (here: a bare 200 plus end of
body) is pushed through `stream_send`, whose recycle resumes the drain
loop. -/

/-- The parser script for a list of pipelined bodyless requests:
h11 yields `PAUSED` between cycles. -/
def pipe_script : List RequestData → List ParseResult
  | [] => []
  | [r] => [.ok (.request r), .ok .endOfMessage]
  | r :: rest =>
    .ok (.request r) :: .ok .endOfMessage :: .ok .paused :: pipe_script rest

/-- `n` application response rounds: each round answers the current
request with a 200 response and end-of-body; the `EndBody` recycle
resumes the drain loop on any buffered pipelined request. -/
def respond_rounds : Nat → ProtoState → ProtoState × List Effect
  | 0, st => (st, [])
  | n + 1, st =>
    let r1 := stream_send st (.response 200 [])
    let r2 := stream_send r1.1 .endBody
    let r3 := respond_rounds n r2.1
    (r3.1, r1.2 ++ r2.2 ++ r3.2)

/-- The initial engine state for a pipelined byte stream that parses to
`script`: fresh h11 connection (idle, next cycle admissible), no active
stream, gate initially unset. -/
def init_state (script : List ParseResult) : ProtoState :=
  { connection := .http ⟨script, false, .idle, true⟩
    can_read := false
    stream := none
    response := none
    scope := none }

/-- The complete pipelined run for requests `rs`: drain, then one
response round per request. -/
def pipelined_run (rs : List RequestData) : ProtoState × List Effect :=
  let r1 := handle_events (init_state (pipe_script rs))
  let r2 := respond_rounds rs.length r1.1
  (r2.1, r1.2 ++ r2.2)

/-- The request deliveries inside an effect trace. -/
def request_dispatches (trace : List Effect) : List StreamEvent :=
  trace.filterMap fun e =>
    match e with
    | .toStream (.request m hs v p) => some (.request m hs v p)
    | _ => none

/-- Count of request deliveries in a trace. -/
def count_dispatch (trace : List Effect) : Nat :=
  (request_dispatches trace).length

/-- Count of `EndOfMessage` serializations in a trace (a response is
fully flushed exactly when its `EndOfMessage` has been serialized). -/
def count_eom (trace : List Effect) : Nat :=
  (trace.filter fun e => e = .rawData .endOfMessage).length

/-- The wire effects of one response round of the auto-responder. -/
def resp_fx : List Effect :=
  [.rawData (.response 200 ([] ++ response_headers strH11)), .rawData .endOfMessage]

/-- The suspension effects emitted when further pipelined requests
remain (the parser yields `PAUSED`). -/
def pause_fx : List RequestData → List Effect
  | [] => []
  | _ :: _ => [.gateClear, .gateWait]

/-- The expected trace of the response rounds while `rest` requests
remain undispatched: each round serializes the response and its
`EndOfMessage`, closes the stream, reopens the gate, and only then (via
the resumed drain loop) dispatches the next request. -/
def expected_rounds : List RequestData → List Effect
  | [] => resp_fx ++ [.toStream .streamClosed, .gateSet, .updated]
  | r :: rest =>
    resp_fx
      ++ [.toStream .streamClosed, .gateSet,
          .toStream (delivered_request r), .toStream .endBody]
      ++ pause_fx rest ++ [.updated] ++ expected_rounds rest

/-- The expected complete trace of a pipelined run. -/
def expected_pipeline : List RequestData → List Effect
  | [] => []
  | r :: rest =>
    .toStream (delivered_request r) :: .toStream .endBody
      :: (pause_fx rest ++ expected_rounds rest)

/-- Contribution of one effect to the request-dispatch count. -/
def dispatch_weight : Effect → Nat
  | .toStream (.request _ _ _ _) => 1
  | _ => 0

/-- Contribution of one effect to the `EndOfMessage` count. -/
def eom_weight : Effect → Nat
  | .rawData .endOfMessage => 1
  | _ => 0

/-- `pref_ok d e T`: starting from `d` dispatches and `e` serialized
`EndOfMessage`s, every prefix of `T` keeps the dispatch count at most
one ahead of the end-of-message count — i.e. request `n+1` is never
dispatched before response `n` is fully flushed. -/
def pref_ok (d e : Nat) : List Effect → Prop
  | [] => d ≤ e + 1
  | x :: t => d ≤ e + 1 ∧ pref_ok (d + dispatch_weight x) (e + eom_weight x) t

/-- Framing results on which the drain loop keeps going without
breaking: body data, end-of-message, pass-through data, and requests
that do not upgrade (an upgrade swaps the parser out; `PAUSED`,
`ConnectionClosed`, `NEED_DATA` and the protocol error break the
loop). -/
def keeps_draining : ParseResult → Bool
  | .ok (.request r) => !(ws_upgrade_request r)
  | .ok (.data _) => true
  | .ok .endOfMessage => true
  | .ok (.wsData _) => true
  | .ok .paused => false
  | .ok .connectionClosed => false
  | .ok .needData => false
  | .remoteProtocolError => false

/-- An effect carries the fixed server-identifying header whenever it is
the serialization of a (normal or informational) response. -/
def has_server_header : Effect → Prop
  | .rawData (.response _ hs) => server_header ∈ hs
  | .rawData (.informationalResponse _ hs) => server_header ∈ hs
  | _ => True

/-! ## Concrete sample inputs (for witnesses and counterexamples) -/

/-- A POST request carrying `Connection: keep-alive, Upgrade` and
`Upgrade: websocket` (the spec's own example: upgrade requires GET). -/
def rPost : RequestData :=
  { method := ofStr "POST"
    target := ofStr "/"
    headers := [(ofStr "Connection", ofStr "keep-alive, Upgrade"),
                (ofStr "Upgrade", ofStr "websocket")]
    http_version := ofStr "1.1" }

/-- A plain GET request with no upgrade headers. -/
def rPlain : RequestData :=
  { method := ofStr "GET"
    target := ofStr "/"
    headers := [(ofStr "Host", ofStr "example.com")]
    http_version := ofStr "1.1" }

/-- A state about to recycle whose cycle restart would be rejected
(`our_state` is `DONE` but the next-cycle preconditions fail) while the
readiness gate is unset. -/
def stRejected : ProtoState :=
  { connection := .http ⟨[], false, .done, false⟩
    can_read := false
    stream := some .http
    response := none
    scope := none }

/-- A post-upgrade state: the pass-through shim with a buffered byte and
an active WebSocket stream. -/
def stShim : ProtoState :=
  { connection := .h11ws (ofStr "x")
    can_read := true
    stream := some .ws
    response := none
    scope := none }

/-- A state whose parser reports the peer waiting for 100-continue with
a body chunk buffered. -/
def stExpect : ProtoState :=
  { connection := .http ⟨[.ok (.data (ofStr "x"))], true, .idle, true⟩
    can_read := true
    stream := some .http
    response := none
    scope := none }

/-! ## ASCII case-map facts -/

theorem char_toNat_ofNat (n : Nat) (h : n < 55296) : (Char.ofNat n).toNat = n := by
  have hv : n.isValidChar := Or.inl h
  rw [Char.ofNat, dif_pos hv]
  simp [Char.ofNatAux, Char.toNat, UInt32.toNat]

theorem char_eq_iff_toNat (c d : Char) : c = d ↔ c.toNat = d.toNat := by
  constructor
  · intro h
    exact congrArg Char.toNat h
  · intro h
    have h2 := congrArg Char.ofNat h
    rwa [Char.ofNat_toNat, Char.ofNat_toNat] at h2

theorem toNat_toLower (c : Char) :
    (Char.toLower c).toNat
      = if c.toNat ≥ 65 ∧ c.toNat ≤ 90 then c.toNat + 32 else c.toNat := by
  show (if c.toNat ≥ 65 ∧ c.toNat ≤ 90 then Char.ofNat (c.toNat + 32) else c).toNat = _
  by_cases h : c.toNat ≥ 65 ∧ c.toNat ≤ 90
  · rw [if_pos h, if_pos h, char_toNat_ofNat _ (by omega)]
  · rw [if_neg h, if_neg h]

theorem toNat_toUpper (c : Char) :
    (Char.toUpper c).toNat
      = if c.toNat ≥ 97 ∧ c.toNat ≤ 122 then c.toNat - 32 else c.toNat := by
  show (if c.toNat ≥ 97 ∧ c.toNat ≤ 122 then Char.ofNat (c.toNat - 32) else c).toNat = _
  by_cases h : c.toNat ≥ 97 ∧ c.toNat ≤ 122
  · rw [if_pos h, if_pos h, char_toNat_ofNat _ (by omega)]
  · rw [if_neg h, if_neg h]

theorem toLower_eq_comma_iff (c : Char) : Char.toLower c = ',' ↔ c = ',' := by
  rw [char_eq_iff_toNat, char_eq_iff_toNat, toNat_toLower]
  have h44 : (',').toNat = 44 := by decide
  rw [h44]
  split <;> omega

theorem isWhitespace_iff_toNat (c : Char) :
    c.isWhitespace = true ↔ (c.toNat = 32 ∨ c.toNat = 9 ∨ c.toNat = 13 ∨ c.toNat = 10) := by
  have h1 : (' ').toNat = 32 := by decide
  have h2 : ('\t').toNat = 9 := by decide
  have h3 : ('\r').toNat = 13 := by decide
  have h4 : ('\n').toNat = 10 := by decide
  simp only [Char.isWhitespace, Bool.or_eq_true, decide_eq_true_eq,
    char_eq_iff_toNat, h1, h2, h3, h4]
  tauto

theorem isWhitespace_toLower (c : Char) :
    (Char.toLower c).isWhitespace = c.isWhitespace := by
  by_cases h : c.isWhitespace = true
  · have hn := (isWhitespace_iff_toNat c).mp h
    have hl : (Char.toLower c).toNat = c.toNat := by
      rw [toNat_toLower, if_neg (by omega)]
    rw [(char_eq_iff_toNat _ _).mpr hl, h]
  · rw [Bool.not_eq_true] at h
    rw [h]
    rw [Bool.eq_false_iff]
    intro hcon
    have hn := (isWhitespace_iff_toNat _).mp hcon
    rw [toNat_toLower] at hn
    have hc : ¬ c.isWhitespace = true := by rw [h]; exact Bool.false_ne_true
    rw [isWhitespace_iff_toNat] at hc
    split at hn <;> omega

theorem toUpper_eq_iff_toLower_eq (c u l : Char) (h1 : u.toNat ≥ 65)
    (h2 : u.toNat ≤ 90) (h3 : l.toNat = u.toNat + 32) :
    (Char.toUpper c = u ↔ Char.toLower c = l) := by
  rw [char_eq_iff_toNat, char_eq_iff_toNat, toNat_toUpper, toNat_toLower]
  split <;> split <;> omega

/-! ## Lowering commutes with split / strip -/

theorem splitComma_ne_nil (s : PyStr) : splitComma s ≠ [] := by
  cases s with
  | nil => simp [splitComma]
  | cons c rest =>
    rw [splitComma]
    split
    · simp
    · split <;> simp

theorem splitComma_pyLower (v : PyStr) :
    splitComma (pyLower v) = (splitComma v).map pyLower := by
  induction v with
  | nil => rfl
  | cons c rest ih =>
    show splitComma (Char.toLower c :: pyLower rest) = _
    by_cases hc : c = ','
    · subst hc
      have hl : Char.toLower ',' = ',' := by decide
      rw [splitComma, if_pos hl, splitComma, if_pos rfl, ih, List.map_cons]
      rfl
    · have hc2 : ¬ Char.toLower c = ',' := fun h => hc ((toLower_eq_comma_iff c).mp h)
      rcases hrest : splitComma rest with _ | ⟨t, ts⟩
      · exact absurd hrest (splitComma_ne_nil rest)
      · rw [splitComma, if_neg hc2, ih, hrest, List.map_cons, splitComma, if_neg hc, hrest]
        rfl

theorem pyStrip_pyLower (s : PyStr) : pyStrip (pyLower s) = pyLower (pyStrip s) := by
  have hws : (Char.isWhitespace ∘ Char.toLower) = Char.isWhitespace :=
    funext isWhitespace_toLower
  unfold pyStrip pyLower
  rw [List.dropWhile_map, hws, ← List.map_reverse, List.dropWhile_map, hws, ← List.map_reverse]

theorem pyUpper_eq_GET_iff (m : PyStr) :
    (pyUpper m = strGET) ↔ (pyLower m = ofStr "get") := by
  have hget : strGET = ['G', 'E', 'T'] := by decide
  have hget2 : ofStr "get" = ['g', 'e', 't'] := by decide
  rw [hget, hget2]
  match m with
  | [] => simp [pyUpper, pyLower]
  | [a] => simp [pyUpper, pyLower]
  | [a, b] => simp [pyUpper, pyLower]
  | [a, b, c] =>
    simp only [pyUpper, pyLower, List.map_cons, List.map_nil, List.cons.injEq, and_true]
    rw [toUpper_eq_iff_toLower_eq a 'G' 'g' (by decide) (by decide) (by decide),
      toUpper_eq_iff_toLower_eq b 'E' 'e' (by decide) (by decide) (by decide),
      toUpper_eq_iff_toLower_eq c 'T' 't' (by decide) (by decide) (by decide)]
  | a :: b :: c :: d :: rest => simp [pyUpper, pyLower]

/-! ## The header scan keeps only the last value of each name -/

theorem extract_append_singleton (hs : List (PyStr × PyStr)) (nv : PyStr × PyStr) :
    extract_upgrade_connection (hs ++ [nv])
      = (if sanitised_name nv.1 = strUpgrade
          then (pyStrip nv.2, (extract_upgrade_connection hs).2)
          else if sanitised_name nv.1 = strConnection
            then ((extract_upgrade_connection hs).1, pyStrip nv.2)
            else extract_upgrade_connection hs) := by
  unfold extract_upgrade_connection
  rw [List.foldl_append]
  rfl

theorem last_header_append_singleton (name : PyStr) (hs : List (PyStr × PyStr))
    (nv : PyStr × PyStr) :
    last_header_value name (hs ++ [nv])
      = if sanitised_name nv.1 = name then nv.2 else last_header_value name hs := by
  unfold last_header_value
  rw [List.reverse_append]
  by_cases h : sanitised_name nv.1 = name
  · rw [if_pos h]
    simp [List.find?, h]
  · rw [if_neg h]
    have hb : (sanitised_name nv.1 == name) = false := by simp [h]
    simp [List.find?, hb]

theorem extract_eq_last (headers : List (PyStr × PyStr)) :
    extract_upgrade_connection headers
      = (pyStrip (last_header_value strUpgrade headers),
         pyStrip (last_header_value strConnection headers)) := by
  induction headers using List.reverseRecOn with
  | nil => rfl
  | append_singleton hs nv ih =>
    rw [extract_append_singleton, last_header_append_singleton,
      last_header_append_singleton, ih]
    by_cases h1 : sanitised_name nv.1 = strUpgrade
    · have h2 : ¬ sanitised_name nv.1 = strConnection := by rw [h1]; decide
      rw [if_pos h1, if_pos h1, if_neg h2]
    · rw [if_neg h1, if_neg h1]
      by_cases h2 : sanitised_name nv.1 = strConnection
      · rw [if_pos h2, if_pos h2]
      · rw [if_neg h2, if_neg h2]

theorem last_header_value_cases (name : PyStr) (hs : List (PyStr × PyStr)) :
    last_header_value name hs = [] ∨ ∃ nv ∈ hs, last_header_value name hs = nv.2 := by
  unfold last_header_value
  rcases h : hs.reverse.find? (fun nv => sanitised_name nv.1 == name) with _ | nv
  · rw [h]
    exact Or.inl rfl
  · rw [h]
    exact Or.inr ⟨nv, List.mem_reverse.mp (List.mem_of_find?_eq_some h), rfl⟩

/-- Claim C10: with duplicate `Connection` or `Upgrade` headers, the
header scan of `_create_stream` keeps only the (stripped) value of the
last header of each name — earlier duplicates are overwritten, never
combined — and the upgrade classification is a function of those two
final values and the method alone. -/
theorem last_header_wins :
    ∀ (headers : List (PyStr × PyStr)) (r : RequestData),
      extract_upgrade_connection headers
        = (pyStrip (last_header_value strUpgrade headers),
           pyStrip (last_header_value strConnection headers))
      ∧ ws_upgrade_request r
          = upgrade_decision (pyStrip (last_header_value strUpgrade r.headers))
              (pyStrip (last_header_value strConnection r.headers)) r.method := by
  intro headers r
  refine ⟨extract_eq_last headers, ?_⟩
  simp only [ws_upgrade_request, upgrade_decision, extract_eq_last r.headers]

/-- Claim C1: `_create_stream` selects the WebSocket stream path iff the
`Connection` header, split on commas with each token whitespace-trimmed
and compared case-insensitively, contains the token `upgrade`, AND the
`Upgrade` header case-insensitively equals `websocket`, AND the method
case-insensitively equals `GET`; otherwise an HTTP stream is created;
in both cases the drain loop delivers the parsed `Request` to the chosen
stream adapter.  (Stated for requests with at most one header of each
name — C10 settles duplicates — and h11-normalized, i.e. OWS-stripped,
header values.) -/
theorem upgrade_detection_matches_spec (r : RequestData)
    (_hconn : count_headers strConnection r.headers ≤ 1)
    (_hup : count_headers strUpgrade r.headers ≤ 1)
    (htrim : ∀ nv ∈ r.headers, pyStrip nv.2 = nv.2) :
    (create_stream_kind r = .ws ↔ spec_selects_websocket r)
    ∧ (∀ (rest : List ParseResult) (w : Bool) (os : WireState) (nok : Bool)
        (st : ProtoState),
        ∃ tail,
          (handle_events_loop (.ok (.request r) :: rest) w os nok st).2
            = pre100effects w ++ .toStream (delivered_request r) :: tail) := by
  have hstrip : ∀ name, pyStrip (last_header_value name r.headers)
      = last_header_value name r.headers := by
    intro name
    rcases last_header_value_cases name r.headers with h | ⟨nv, hmem, h⟩
    · rw [h]; rfl
    · rw [h]; exact (htrim nv hmem)
  constructor
  · have hkind : create_stream_kind r = .ws ↔ ws_upgrade_request r = true := by
      unfold create_stream_kind
      by_cases h : ws_upgrade_request r <;> simp [h]
    rw [hkind]
    unfold ws_upgrade_request
    rw [extract_eq_last r.headers]
    simp only []
    rw [Bool.and_eq_true, Bool.and_eq_true]
    have hA : ((splitComma (pyLower (pyStrip (last_header_value strConnection r.headers)))).any
          fun token => pyStrip token == strUpgrade) = true
        ↔ spec_connection_contains_upgrade (last_header_value strConnection r.headers) := by
      rw [hstrip, splitComma_pyLower, List.any_map]
      have hfun : ((fun token => pyStrip token == strUpgrade) ∘ pyLower)
          = (fun token => pyLower (pyStrip token) == strUpgrade) := by
        funext t
        show (pyStrip (pyLower t) == strUpgrade) = _
        rw [pyStrip_pyLower]
      rw [hfun, List.any_eq_true]
      have hlow : pyLower strUpgrade = strUpgrade := by decide
      simp only [beq_iff_eq, spec_connection_contains_upgrade, ci_eq, hlow]
    have hB : (pyLower (pyStrip (last_header_value strUpgrade r.headers)) == strWebsocket) = true
        ↔ ci_eq (last_header_value strUpgrade r.headers) strWebsocket := by
      rw [hstrip]
      have hlow : pyLower strWebsocket = strWebsocket := by decide
      simp only [beq_iff_eq, ci_eq, hlow]
    have hC : (pyUpper r.method == strGET) = true ↔ ci_eq r.method strGET := by
      have hlow : pyLower strGET = ofStr "get" := by decide
      simp only [beq_iff_eq, ci_eq, hlow]
      exact pyUpper_eq_GET_iff r.method
    rw [hA, hB, hC]
    unfold spec_selects_websocket
    rw [and_assoc]
  · intro rest w os nok st
    by_cases h : ws_upgrade_request r
    · refine ⟨[], ?_⟩
      simp [handle_events_loop, h]
    · refine ⟨(handle_events_loop rest false os nok { st with stream := some .http }).2, ?_⟩
      simp [handle_events_loop, h]

/-- Witness for C1: the spec's own example — `Connection: keep-alive,
Upgrade`, `Upgrade: websocket`, but method `POST` — satisfies the
hypotheses, and the theorem applies. -/
theorem upgrade_detection_matches_spec_witness :
    (count_headers strConnection rPost.headers ≤ 1
      ∧ count_headers strUpgrade rPost.headers ≤ 1
      ∧ ∀ nv ∈ rPost.headers, pyStrip nv.2 = nv.2)
    ∧ ((create_stream_kind rPost = .ws ↔ spec_selects_websocket rPost)
      ∧ (∀ (rest : List ParseResult) (w : Bool) (os : WireState) (nok : Bool)
          (st : ProtoState),
          ∃ tail,
            (handle_events_loop (.ok (.request rPost) :: rest) w os nok st).2
              = pre100effects w ++ .toStream (delivered_request rPost) :: tail)) :=
  ⟨⟨by decide, by decide, by decide⟩,
    upgrade_detection_matches_spec rPost (by decide) (by decide) (by decide)⟩

/-! ## The drain loop -/

theorem handle_events_loop_trace_shape (script : List ParseResult) (w : Bool)
    (os : WireState) (nok : Bool) (st : ProtoState) :
    ∃ t, (handle_events_loop script w os nok st).2 = pre100effects w ++ t := by
  match script with
  | [] => exact ⟨[], (List.append_nil _).symm⟩
  | .remoteProtocolError :: rest =>
    exact ⟨[.rawData (.response 400 error_response_headers), .rawData .endOfMessage, .closed],
      by simp [handle_events_loop, send_error_response, send_h11_event]⟩
  | .ok (.request r) :: rest =>
    by_cases h : ws_upgrade_request r
    · exact ⟨[.toStream (delivered_request r)], by simp [handle_events_loop, h]⟩
    · exact ⟨.toStream (delivered_request r)
          :: (handle_events_loop rest false os nok { st with stream := some .http }).2,
        by simp [handle_events_loop, h]⟩
  | .ok (.data d) :: rest =>
    exact ⟨.toStream (.body d) :: (handle_events_loop rest false os nok st).2, rfl⟩
  | .ok .endOfMessage :: rest =>
    exact ⟨.toStream .endBody :: (handle_events_loop rest false os nok st).2, rfl⟩
  | .ok (.wsData d) :: rest =>
    exact ⟨.toStream (.data d) :: (handle_events_loop rest false os nok st).2, rfl⟩
  | .ok .paused :: rest => exact ⟨[.gateClear, .gateWait], rfl⟩
  | .ok .connectionClosed :: rest => exact ⟨[], (List.append_nil _).symm⟩
  | .ok .needData :: rest => exact ⟨[], (List.append_nil _).symm⟩

/-- Claim C4: when the parser reports the peer waiting for 100-continue,
the drain loop emits the `100` informational response first — before the
next framing event is dispatched, hence before any request body bytes
are forwarded to the application. -/
theorem expect_continue_first (st : ProtoState) (c : HttpConn)
    (hc : st.connection = .http c)
    (hw : c.they_are_waiting_for_100_continue = true) :
    (∃ tail, (handle_events st).2 = .rawData continue_response :: tail)
    ∧ ∀ (i : Nat) (d : PyStr),
        (handle_events st).2.get? i = some (.toStream (.body d)) → 0 < i := by
  have heq : handle_events st
      = handle_events_loop c.script c.they_are_waiting_for_100_continue
          c.our_state c.next_cycle_ok st := by
    unfold handle_events
    rw [hc]
  obtain ⟨t, ht⟩ :=
    handle_events_loop_trace_shape c.script true c.our_state c.next_cycle_ok st
  have htrace : (handle_events st).2 = .rawData continue_response :: t := by
    rw [heq, hw, ht]
    rfl
  refine ⟨⟨t, htrace⟩, ?_⟩
  intro i d hi
  cases i with
  | zero =>
    rw [htrace] at hi
    simp at hi
  | succ n => omega

/-- Witness for C4: a parser with a buffered body chunk and the
100-continue flag set emits the informational response first. -/
theorem expect_continue_first_witness :
    (stExpect.connection = .http ⟨[.ok (.data (ofStr "x"))], true, .idle, true⟩)
    ∧ ((∃ tail, (handle_events stExpect).2 = .rawData continue_response :: tail)
      ∧ ∀ (i : Nat) (d : PyStr),
          (handle_events stExpect).2.get? i = some (.toStream (.body d)) → 0 < i) :=
  ⟨rfl, expect_continue_first stExpect ⟨[.ok (.data (ofStr "x"))], true, .idle, true⟩ rfl rfl⟩

/-! ## Malformed input: one 400 response, then closure -/

theorem response_not_mem_pre100 (s : Nat) (hs : List (PyStr × PyStr)) (w : Bool) :
    Effect.rawData (.response s hs) ∉ pre100effects w := by
  unfold pre100effects
  split <;> simp [continue_response]

theorem loop_error_trace (front : List ParseResult) (rest : List ParseResult)
    (os : WireState) (nok : Bool) :
    ∀ (w : Bool) (st : ProtoState),
    (∀ e ∈ front, keeps_draining e = true) →
    ∃ pre,
      (handle_events_loop (front ++ .remoteProtocolError :: rest) w os nok st).2
        = pre ++ [.rawData (.response 400 error_response_headers),
                  .rawData .endOfMessage, .closed]
      ∧ (∀ (s : Nat) (hs : List (PyStr × PyStr)), Effect.rawData (.response s hs) ∉ pre)
      ∧ (handle_events_loop (front ++ .remoteProtocolError :: rest) w os nok st).1.connection
          = .http ⟨rest, false, .done, nok⟩ := by
  induction front with
  | nil =>
    intro w st _
    refine ⟨pre100effects w, ?_, ?_, ?_⟩
    · simp [handle_events_loop, send_error_response, send_h11_event]
    · intro s hs
      exact response_not_mem_pre100 s hs w
    · simp [handle_events_loop, send_error_response, send_h11_event, Conn.send, HttpConn.send]
  | cons e front' ih =>
    intro w st hf
    have he := hf e (by simp)
    have hf' : ∀ x ∈ front', keeps_draining x = true := fun x hx => hf x (by simp [hx])
    rcases e with ev | _
    case remoteProtocolError => simp [keeps_draining] at he
    rcases ev with r | d | _ | d | _ | _ | _
    case request =>
      have hws : ws_upgrade_request r = false := by
        simpa [keeps_draining] using he
      obtain ⟨pre', h1, h2, h3⟩ := ih false { st with stream := some .http } hf'
      refine ⟨pre100effects w ++ .toStream (delivered_request r) :: pre', ?_, ?_, ?_⟩
      · simp [handle_events_loop, hws, h1]
      · intro s hs
        simp only [List.mem_append, List.mem_cons]
        push_neg
        exact ⟨response_not_mem_pre100 s hs w, by simp, fun hmem => h2 s hs hmem⟩
      · simpa [handle_events_loop, hws] using h3
    case data =>
      obtain ⟨pre', h1, h2, h3⟩ := ih false st hf'
      refine ⟨pre100effects w ++ .toStream (.body d) :: pre', ?_, ?_, ?_⟩
      · simp [handle_events_loop, h1]
      · intro s hs
        simp only [List.mem_append, List.mem_cons]
        push_neg
        exact ⟨response_not_mem_pre100 s hs w, by simp, fun hmem => h2 s hs hmem⟩
      · simpa [handle_events_loop] using h3
    case endOfMessage =>
      obtain ⟨pre', h1, h2, h3⟩ := ih false st hf'
      refine ⟨pre100effects w ++ .toStream .endBody :: pre', ?_, ?_, ?_⟩
      · simp [handle_events_loop, h1]
      · intro s hs
        simp only [List.mem_append, List.mem_cons]
        push_neg
        exact ⟨response_not_mem_pre100 s hs w, by simp, fun hmem => h2 s hs hmem⟩
      · simpa [handle_events_loop] using h3
    case wsData =>
      obtain ⟨pre', h1, h2, h3⟩ := ih false st hf'
      refine ⟨pre100effects w ++ .toStream (.data d) :: pre', ?_, ?_, ?_⟩
      · simp [handle_events_loop, h1]
      · intro s hs
        simp only [List.mem_append, List.mem_cons]
        push_neg
        exact ⟨response_not_mem_pre100 s hs w, by simp, fun hmem => h2 s hs hmem⟩
      · simpa [handle_events_loop] using h3
    case paused => simp [keeps_draining] at he
    case connectionClosed => simp [keeps_draining] at he
    case needData => simp [keeps_draining] at he

/-- Claim C3: when `next_event` raises the remote protocol error after
any run of ordinary framing events, the engine sends exactly one error
response — status 400 with `Connection: close` and `Content-Length: 0`
among its headers — followed by end-of-message, then signals `Closed`
and stops: the script beyond the error is left unconsumed (no retry). -/
theorem malformed_request_single_error (front rest : List ParseResult) (w : Bool)
    (os : WireState) (nok : Bool) (st : ProtoState)
    (hf : ∀ e ∈ front, keeps_draining e = true) :
    ((ofStr "connection", ofStr "close") ∈ error_response_headers
      ∧ (ofStr "content-length", ofStr "0") ∈ error_response_headers)
    ∧ ∃ pre,
        (handle_events_loop (front ++ .remoteProtocolError :: rest) w os nok st).2
          = pre ++ [.rawData (.response 400 error_response_headers),
                    .rawData .endOfMessage, .closed]
        ∧ (∀ (s : Nat) (hs : List (PyStr × PyStr)), Effect.rawData (.response s hs) ∉ pre)
        ∧ (handle_events_loop (front ++ .remoteProtocolError :: rest) w os nok st).1.connection
            = .http ⟨rest, false, .done, nok⟩ :=
  ⟨⟨by decide, by decide⟩, loop_error_trace front rest os nok w st hf⟩

/-- Witness for C3: a well-formed request followed by malformed bytes
yields the single 400/close/end-of-message trace. -/
theorem malformed_request_single_error_witness :
    (∀ e ∈ [ParseResult.ok (.request rPlain)], keeps_draining e = true)
    ∧ (((ofStr "connection", ofStr "close") ∈ error_response_headers
        ∧ (ofStr "content-length", ofStr "0") ∈ error_response_headers)
      ∧ ∃ pre,
          (handle_events_loop ([ParseResult.ok (.request rPlain)]
              ++ .remoteProtocolError :: [.ok .needData]) false .idle true
              (init_state [])).2
            = pre ++ [.rawData (.response 400 error_response_headers),
                      .rawData .endOfMessage, .closed]
          ∧ (∀ (s : Nat) (hs : List (PyStr × PyStr)), Effect.rawData (.response s hs) ∉ pre)
          ∧ (handle_events_loop ([ParseResult.ok (.request rPlain)]
              ++ .remoteProtocolError :: [.ok .needData]) false .idle true
              (init_state [])).1.connection
              = .http ⟨[.ok .needData], false, .done, true⟩) :=
  ⟨by decide,
    malformed_request_single_error [.ok (.request rPlain)] [.ok .needData] false .idle true
      (init_state []) (by decide)⟩

/-! ## Every response carries the server header -/

theorem pre100_server (w : Bool) : ∀ e ∈ pre100effects w, has_server_header e := by
  unfold pre100effects
  split
  · intro e he
    simp only [List.mem_singleton] at he
    subst he
    show server_header ∈ response_headers strH11
    decide
  · intro e he
    simp at he

theorem loop_server_header (script : List ParseResult) :
    ∀ (w : Bool) (os : WireState) (nok : Bool) (st : ProtoState),
    ∀ e ∈ (handle_events_loop script w os nok st).2, has_server_header e := by
  induction script with
  | nil =>
    intro w os nok st e he
    unfold handle_events_loop at he
    exact pre100_server w e he
  | cons r rest ih =>
    intro w os nok st e he
    rcases r with ev | _
    case remoteProtocolError =>
      simp only [handle_events_loop, send_error_response, send_h11_event, List.mem_append,
        List.mem_cons, List.mem_singleton, List.not_mem_nil, or_false] at he
      rcases he with (he | he | he) | he
      · exact pre100_server w e he
      · subst he
        show server_header ∈ error_response_headers
        decide
      · subst he; trivial
      · subst he; trivial
    case ok =>
      rcases ev with r | d | _ | d | _ | _ | _
      case request =>
        by_cases hws : ws_upgrade_request r
        · simp only [handle_events_loop, hws, if_true, List.mem_append, List.mem_singleton] at he
          rcases he with he | he
          · exact pre100_server w e he
          · subst he; trivial
        · simp only [handle_events_loop, hws, if_false, Bool.false_eq_true, List.mem_append,
            List.mem_cons] at he
          rcases he with he | he | he
          · exact pre100_server w e he
          · subst he; trivial
          · exact ih false os nok _ e he
      case data =>
        simp only [handle_events_loop, List.mem_append, List.mem_cons] at he
        rcases he with he | he | he
        · exact pre100_server w e he
        · subst he; trivial
        · exact ih false os nok _ e he
      case endOfMessage =>
        simp only [handle_events_loop, List.mem_append, List.mem_cons] at he
        rcases he with he | he | he
        · exact pre100_server w e he
        · subst he; trivial
        · exact ih false os nok _ e he
      case wsData =>
        simp only [handle_events_loop, List.mem_append, List.mem_cons] at he
        rcases he with he | he | he
        · exact pre100_server w e he
        · subst he; trivial
        · exact ih false os nok _ e he
      case paused =>
        simp only [handle_events_loop, List.mem_append, List.mem_cons, List.mem_singleton,
          List.not_mem_nil, or_false] at he
        rcases he with he | he | he
        · exact pre100_server w e he
        · subst he; trivial
        · subst he; trivial
      case connectionClosed =>
        unfold handle_events_loop at he
        exact pre100_server w e he
      case needData =>
        unfold handle_events_loop at he
        exact pre100_server w e he

theorem handle_events_server (st : ProtoState) :
    ∀ e ∈ (handle_events st).2, has_server_header e := by
  intro e he
  unfold handle_events at he
  rcases hc : st.connection with c | b
  · rw [hc] at he
    exact loop_server_header c.script _ _ _ st e he
  · rw [hc] at he
    by_cases hb : b.isEmpty
    · simp [hb] at he
    · simp only [hb, if_false, Bool.false_eq_true, List.mem_singleton] at he
      subst he
      trivial

theorem close_stream_server (st : ProtoState) :
    ∀ e ∈ (close_stream st).2, has_server_header e := by
  intro e he
  unfold close_stream at he
  rcases hs : st.stream with _ | k
  · rw [hs] at he
    simp at he
  · rw [hs] at he
    simp only [List.mem_singleton] at he
    subst he
    trivial

theorem maybe_recycle_server (st : ProtoState) :
    ∀ e ∈ (maybe_recycle st).2, has_server_header e := by
  intro e he
  simp only [maybe_recycle] at he
  rcases hc : (close_stream st).1.connection with c | b
  · rw [hc] at he
    by_cases hd : c.our_state = .done
    · by_cases hn : c.next_cycle_ok
      · simp only [hd, hn, if_true, List.mem_append, List.mem_cons, List.mem_singleton,
          List.not_mem_nil, or_false] at he
        rcases he with ((he | he) | he) | he
        · exact close_stream_server st e he
        · subst he; trivial
        · exact handle_events_server _ e he
        · subst he; trivial
      · simp only [hd, hn, if_true, if_false, Bool.false_eq_true, List.mem_append,
          List.mem_singleton] at he
        rcases he with he | he
        · exact close_stream_server st e he
        · subst he; trivial
    · simp only [hd, if_false, List.mem_append, List.mem_cons, List.mem_singleton,
        List.not_mem_nil, or_false] at he
      rcases he with he | he | he
      · exact close_stream_server st e he
      · subst he; trivial
      · subst he; trivial
  · rw [hc] at he
    simp only [List.mem_append, List.mem_cons, List.mem_singleton, List.not_mem_nil,
      or_false] at he
    rcases he with he | he | he
    · exact close_stream_server st e he
    · subst he; trivial
    · subst he; trivial

theorem stream_send_server (st : ProtoState) (ev : StreamEvent) :
    ∀ e ∈ (stream_send st ev).2, has_server_header e := by
  intro e he
  rcases ev with ⟨m, hs, v, p⟩ | ⟨d⟩ | _ | ⟨d⟩ | _ | ⟨status, hs⟩ | _
  case request => simp [stream_send] at he
  case body =>
    simp only [stream_send, send_h11_event, List.mem_singleton] at he
    subst he; trivial
  case endBody =>
    simp only [stream_send, send_h11_event, List.mem_append, List.mem_cons,
      List.not_mem_nil, or_false] at he
    rcases he with he | he
    · subst he; trivial
    · exact maybe_recycle_server _ e he
  case data =>
    simp only [stream_send, List.mem_singleton] at he
    subst he; trivial
  case endData => exact maybe_recycle_server st e he
  case response =>
    by_cases hst : 200 ≤ status
    · simp only [stream_send, hst, if_true, send_h11_event, List.mem_singleton] at he
      subst he
      show server_header ∈ hs ++ response_headers strH11
      simp [response_headers, server_header, strH11, ofStr]
    · simp only [stream_send, hst, if_false, send_h11_event, List.mem_singleton] at he
      subst he
      show server_header ∈ hs ++ response_headers strH11
      simp [response_headers, server_header, strH11, ofStr]
  case streamClosed => exact maybe_recycle_server st e he

/-- Claim C9: every HTTP response the engine serializes — normal and
informational responses from `stream_send`, the automatic 100-continue
response, and the engine-generated 400 error response — carries the
fixed server-identifying header in addition to any application-supplied
headers. -/
theorem server_header_always_included :
    ∀ (st : ProtoState),
      (∀ (ev : StreamEvent), ∀ e ∈ (stream_send st ev).2, has_server_header e)
      ∧ (∀ e ∈ (handle_events st).2, has_server_header e)
      ∧ (∀ e ∈ (maybe_recycle st).2, has_server_header e) :=
  fun st =>
    ⟨fun ev => stream_send_server st ev, handle_events_server st, maybe_recycle_server st⟩

/-- Witness for C9: the 200 response sent through `stream_send` on a
fresh connection carries the server header. -/
theorem server_header_always_included_witness :
    has_server_header (.rawData (.response 200 ([] ++ response_headers strH11))) :=
  (server_header_always_included (init_state [])).1 (.response 200 [])
    (.rawData (.response 200 ([] ++ response_headers strH11))) (by decide)

/-! ## Recycling -/

theorem close_stream_connection (st : ProtoState) :
    (close_stream st).1.connection = st.connection := by
  unfold close_stream
  rcases st.stream with _ | k <;> rfl

theorem close_stream_can_read (st : ProtoState) :
    (close_stream st).1.can_read = st.can_read := by
  unfold close_stream
  rcases st.stream with _ | k <;> rfl

theorem loop_preserves_rs (script : List ParseResult) :
    ∀ (w : Bool) (os : WireState) (nok : Bool) (st : ProtoState),
      (handle_events_loop script w os nok st).1.response = st.response
      ∧ (handle_events_loop script w os nok st).1.scope = st.scope := by
  induction script with
  | nil => intro w os nok st; exact ⟨rfl, rfl⟩
  | cons r rest ih =>
    intro w os nok st
    rcases r with ev | _
    case remoteProtocolError => exact ⟨rfl, rfl⟩
    rcases ev with r | d | _ | d | _ | _ | _
    case request =>
      by_cases hws : ws_upgrade_request r
      · constructor <;> simp [handle_events_loop, hws]
      · constructor <;>
          simp [handle_events_loop, hws, (ih false os nok { st with stream := some .http }).1,
            (ih false os nok { st with stream := some .http }).2]
    case data => exact ih false os nok st
    case endOfMessage => exact ih false os nok st
    case wsData => exact ih false os nok st
    case paused => exact ⟨rfl, rfl⟩
    case connectionClosed => exact ⟨rfl, rfl⟩
    case needData => exact ⟨rfl, rfl⟩

theorem handle_events_preserves_rs (st : ProtoState) :
    (handle_events st).1.response = st.response
    ∧ (handle_events st).1.scope = st.scope := by
  unfold handle_events
  rcases hc : st.connection with c | b
  · exact loop_preserves_rs c.script _ _ _ st
  · by_cases hb : b.isEmpty <;> simp [hb]

/-- Claim C2 (amended): `_maybe_recycle` first delivers `StreamClosed`
to the active stream; when the parser's our-state is `Done` and the
cycle restart is admissible it clears `response`/`scope`, opens the
readiness gate, resumes the drain loop and signals `Updated`; when the
our-state is not `Done` it opens the gate and signals `Closed`; when the
cycle restart is rejected it signals `Closed` with the readiness gate
left unchanged (the claim's "leaves the gate open" fails there — see the
counterexample). -/
theorem recycle_behaviour (st : ProtoState) (c : HttpConn) :
    (st.stream ≠ none →
      ∃ t, (maybe_recycle st).2 = .toStream .streamClosed :: t)
    ∧ (st.connection = .http c → c.our_state = .done → c.next_cycle_ok = true →
        (maybe_recycle st).2
          = (close_stream st).2 ++ [.gateSet]
            ++ (handle_events
                { (close_stream st).1 with
                  connection := .http { c with our_state := .idle },
                  response := none, scope := none, can_read := true }).2
            ++ [.updated]
        ∧ (maybe_recycle st).1.response = none
        ∧ (maybe_recycle st).1.scope = none)
    ∧ (st.connection = .http c → ¬ c.our_state = .done →
        (maybe_recycle st).2 = (close_stream st).2 ++ [.gateSet, .closed]
        ∧ (maybe_recycle st).1.can_read = true)
    ∧ (st.connection = .http c → c.our_state = .done → c.next_cycle_ok = false →
        (maybe_recycle st).2 = (close_stream st).2 ++ [.closed]
        ∧ (maybe_recycle st).1.can_read = st.can_read) := by
  refine ⟨?_, ?_, ?_, ?_⟩
  · intro hs
    rcases hstream : st.stream with _ | k
    · exact absurd hstream hs
    · have hclose : (close_stream st).2 = [.toStream .streamClosed] := by
        unfold close_stream
        rw [hstream]
      simp only [maybe_recycle]
      rcases hc2 : (close_stream st).1.connection with c2 | b2
      · by_cases hd : c2.our_state = .done
        · by_cases hn : c2.next_cycle_ok
          · simp only [hd, hn, if_true, hclose]
            exact ⟨_, rfl⟩
          · simp only [hd, hn, if_true, Bool.false_eq_true, if_false, hclose]
            exact ⟨_, rfl⟩
        · simp only [hd, if_false, hclose]
          exact ⟨_, rfl⟩
      · simp only [hclose]
        exact ⟨_, rfl⟩
  · intro hc hd hn
    have hc1 : (close_stream st).1.connection = .http c := by
      rw [close_stream_connection, hc]
    simp only [maybe_recycle]
    rw [hc1]
    simp only [hd, hn, if_true]
    refine ⟨by trivial, ?_, ?_⟩
    · exact (handle_events_preserves_rs _).1
    · exact (handle_events_preserves_rs _).2
  · intro hc hd
    have hc1 : (close_stream st).1.connection = .http c := by
      rw [close_stream_connection, hc]
    simp only [maybe_recycle]
    rw [hc1]
    simp only [hd, if_false]
    exact ⟨by trivial, by trivial⟩
  · intro hc hd hn
    have hc1 : (close_stream st).1.connection = .http c := by
      rw [close_stream_connection, hc]
    simp only [maybe_recycle]
    rw [hc1]
    simp only [hd, hn, if_true, Bool.false_eq_true, if_false]
    exact ⟨by trivial, close_stream_can_read st⟩

/-- Counterexample to C2 as frozen: with `our_state = Done` but the
cycle restart rejected and the gate unset, `_maybe_recycle` signals
`Closed` yet the readiness gate stays closed — the code's rejected
branch never touches the gate, contradicting "leaves the readiness gate
open" for that failure case. -/
theorem recycle_gate_counterexample :
    (maybe_recycle stRejected).2 = [.toStream .streamClosed, .closed]
    ∧ (maybe_recycle stRejected).1.can_read = false := by decide

/-- Witness for C2 (amended): the rejected-cycle branch at the concrete
state signals `Closed` and leaves the gate exactly as it was. -/
theorem recycle_behaviour_witness :
    stRejected.connection = .http ⟨[], false, .done, false⟩
    ∧ ((maybe_recycle stRejected).2 = (close_stream stRejected).2 ++ [.closed]
      ∧ (maybe_recycle stRejected).1.can_read = stRejected.can_read) :=
  ⟨rfl, (recycle_behaviour stRejected ⟨[], false, .done, false⟩).2.2.2 rfl rfl rfl⟩

/-! ## The pass-through shim -/

theorem maybe_recycle_shim (st : ProtoState) (b : PyStr) (hc : st.connection = .h11ws b) :
    (maybe_recycle st).1.connection = .h11ws b
    ∧ (maybe_recycle st).2 = (close_stream st).2 ++ [.gateSet, .closed] := by
  have hc1 : (close_stream st).1.connection = .h11ws b := by
    rw [close_stream_connection, hc]
  simp only [maybe_recycle]
  rw [hc1]
  exact ⟨rfl, rfl⟩

theorem updated_not_mem_close (st : ProtoState) :
    Effect.updated ∉ (close_stream st).2 := by
  unfold close_stream
  rcases st.stream with _ | k <;> simp

/-- Claim C5: after a WebSocket upgrade the connection slot is the
pass-through shim `H11WSConnection`, whose `next_event` drains all
buffered bytes as one opaque `Data` event (emptying the buffer) or
reports need-more-data on an empty buffer, never an HTTP framing event;
its `our_state` is `None`, every engine operation leaves the shim in
place, and `_maybe_recycle` on it always signals `Closed` and never
`Updated` — the connection is never recycled back to HTTP. -/
theorem ws_shim_pass_through (b : PyStr) (st : ProtoState) :
    Conn.our_state (.h11ws b) = none
    ∧ (b ≠ [] → Conn.next_event (.h11ws b) = (.ok (.wsData b), .h11ws []))
    ∧ Conn.next_event (.h11ws []) = (.ok .needData, .h11ws [])
    ∧ (∀ r : RequestData, (Conn.next_event (.h11ws b)).1 ≠ .ok (.request r))
    ∧ (∀ d : PyStr, (Conn.next_event (.h11ws b)).1 ≠ .ok (.data d))
    ∧ (Conn.next_event (.h11ws b)).1 ≠ .ok .endOfMessage
    ∧ (st.connection = .h11ws b → b ≠ [] →
        handle_events st = ({ st with connection := .h11ws [] }, [.toStream (.data b)]))
    ∧ (st.connection = .h11ws b → b = [] → handle_events st = (st, []))
    ∧ (st.connection = .h11ws b →
        (maybe_recycle st).1.connection = .h11ws b
        ∧ (maybe_recycle st).2 = (close_stream st).2 ++ [.gateSet, .closed]
        ∧ Effect.updated ∉ (maybe_recycle st).2)
    ∧ (∀ ev : StreamEvent, st.connection = .h11ws b →
        ∃ b2, (stream_send st ev).1.connection = .h11ws b2)
    ∧ (∀ (r : RequestData) (rest : List ParseResult) (w : Bool) (os : WireState)
        (nok : Bool) (st2 : ProtoState),
        ws_upgrade_request r = true →
        (handle_events_loop (.ok (.request r) :: rest) w os nok st2).1.connection
          = .h11ws []) := by
  refine ⟨rfl, ?_, rfl, ?_, ?_, ?_, ?_, ?_, ?_, ?_, ?_⟩
  · intro hb
    have hb2 : b.isEmpty = false := by simpa using hb
    simp [Conn.next_event, hb2]
  · intro r
    simp only [Conn.next_event]
    split <;> simp
  · intro d
    simp only [Conn.next_event]
    split <;> simp
  · simp only [Conn.next_event]
    split <;> simp
  · intro hc hb
    have hb2 : b.isEmpty = false := by simpa using hb
    simp [handle_events, hc, hb2]
  · intro hc hb
    subst hb
    unfold handle_events
    rw [hc]
    rfl
  · intro hc
    refine ⟨(maybe_recycle_shim st b hc).1, (maybe_recycle_shim st b hc).2, ?_⟩
    rw [(maybe_recycle_shim st b hc).2]
    simp only [List.mem_append, List.mem_cons, List.not_mem_nil, or_false,
      List.mem_singleton]
    push_neg
    exact ⟨updated_not_mem_close st, by simp, by simp⟩
  · intro ev hc
    rcases ev with ⟨m, hs, v, p⟩ | ⟨d⟩ | _ | ⟨d⟩ | _ | ⟨status, hs⟩ | _
    case request => exact ⟨b, by simp [stream_send, hc]⟩
    case body => exact ⟨b, by simp [stream_send, send_h11_event, Conn.send, hc]⟩
    case endBody =>
      refine ⟨b, ?_⟩
      have h1 : (send_h11_event st .endOfMessage).1.connection = .h11ws b := by
        simp [send_h11_event, Conn.send, hc]
      simp only [stream_send]
      exact (maybe_recycle_shim _ b h1).1
    case data => exact ⟨b, by simp [stream_send, hc]⟩
    case endData => exact ⟨b, (maybe_recycle_shim st b hc).1⟩
    case response =>
      by_cases hst : 200 ≤ status
      · exact ⟨b, by simp [stream_send, hst, send_h11_event, Conn.send, hc]⟩
      · exact ⟨b, by simp [stream_send, hst, send_h11_event, Conn.send, hc]⟩
    case streamClosed => exact ⟨b, (maybe_recycle_shim st b hc).1⟩
  · intro r rest w os nok st2 hws
    simp [handle_events_loop, hws]

/-- Witness for C5: the shim with the single buffered byte `x` and an
active WebSocket stream. -/
theorem ws_shim_pass_through_witness :
    (ofStr "x" ≠ [] ∧ stShim.connection = .h11ws (ofStr "x"))
    ∧ (Conn.next_event (.h11ws (ofStr "x")) = (.ok (.wsData (ofStr "x")), .h11ws [])
      ∧ handle_events stShim
          = ({ stShim with connection := .h11ws [] }, [.toStream (.data (ofStr "x"))])
      ∧ (maybe_recycle stShim).1.connection = .h11ws (ofStr "x")) := by
  have h := ws_shim_pass_through (ofStr "x") stShim
  exact ⟨⟨by decide, rfl⟩,
    ⟨h.2.1 (by decide), h.2.2.2.2.2.2.1 rfl (by decide), (h.2.2.2.2.2.2.2.2.1 rfl).1⟩⟩

/-! ## Outgoing event translation -/

/-- Claim C6: `stream_send` serializes a `Response` with status ≥ 200 as
an h11 `Response` and with status < 200 as an `InformationalResponse`
(each with the event's headers plus the injected ones), a `Body` as h11
`Data`, an `EndBody` as `EndOfMessage` followed by a recycle attempt; an
opaque `Data` event is written directly to the transport, bypassing the
parser (the connection is untouched); `EndData` and `StreamClosed`
trigger a recycle attempt. -/
theorem stream_send_translation (st : ProtoState) (status : Nat)
    (hs : List (PyStr × PyStr)) (d : PyStr) :
    (200 ≤ status →
      stream_send st (.response status hs)
        = ({ st with connection :=
              st.connection.send (.response status (hs ++ response_headers strH11)) },
           [.rawData (.response status (hs ++ response_headers strH11))]))
    ∧ (status < 200 →
      stream_send st (.response status hs)
        = ({ st with connection :=
              st.connection.send (.informationalResponse status (hs ++ response_headers strH11)) },
           [.rawData (.informationalResponse status (hs ++ response_headers strH11))]))
    ∧ stream_send st (.body d)
        = ({ st with connection := st.connection.send (.data d) }, [.rawData (.data d)])
    ∧ stream_send st .endBody
        = ((maybe_recycle (send_h11_event st .endOfMessage).1).1,
           .rawData .endOfMessage :: (maybe_recycle (send_h11_event st .endOfMessage).1).2)
    ∧ stream_send st (.data d) = (st, [.rawBytes d])
    ∧ stream_send st .endData = maybe_recycle st
    ∧ stream_send st .streamClosed = maybe_recycle st := by
  refine ⟨?_, ?_, rfl, rfl, rfl, rfl, rfl⟩
  · intro h
    simp [stream_send, send_h11_event, h]
  · intro h
    have h2 : ¬ 200 ≤ status := by omega
    simp [stream_send, send_h11_event, h2]

/-- Witness for C6: the 200 response and the `EndData` recycle on a
fresh connection. -/
theorem stream_send_translation_witness :
    stream_send (init_state []) (.response 200 [])
      = ({ init_state [] with connection :=
            (init_state []).connection.send (.response 200 ([] ++ response_headers strH11)) },
         [.rawData (.response 200 ([] ++ response_headers strH11))])
    ∧ stream_send (init_state []) .endData = maybe_recycle (init_state []) :=
  ⟨(stream_send_translation (init_state []) 200 [] []).1 (by decide),
   (stream_send_translation (init_state []) 200 [] []).2.2.2.2.2.1⟩

/-! ## WebSocket message-size enforcement -/

theorem read_messages_too_large_aux (front : List (List Nat)) :
    ∀ (acc : List Nat) (mx : Nat) (d : List Nat) (fin : Bool) (post : List WsprotoEvent),
    acc.length + (front.map List.length).sum ≤ mx →
    mx < acc.length + (front.map List.length).sum + d.length →
    read_messages_events
        (front.map (fun f => WsprotoEvent.dataReceived f false)
          ++ .dataReceived d fin :: post)
        ⟨acc, mx⟩
      = ([.closeConn 1009, .enqueueDisconnect], ⟨acc ++ front.flatten, mx⟩, true, post) := by
  induction front with
  | nil =>
    intro acc mx d fin post hok hcross
    simp only [List.map_nil, List.sum_nil] at hcross
    have hx : mx < acc.length + d.length := by omega
    simp [read_messages_events, WebsocketBuffer.extend, hx]
  | cons f front' ih =>
    intro acc mx d fin post hok hcross
    simp only [List.map_cons, List.sum_cons] at hok hcross
    have hfit : ¬ mx < acc.length + f.length := by omega
    have hstep : read_messages_events
        (WsprotoEvent.dataReceived f false
          :: (front'.map (fun g => WsprotoEvent.dataReceived g false)
              ++ .dataReceived d fin :: post)) ⟨acc, mx⟩
        = read_messages_events
            (front'.map (fun g => WsprotoEvent.dataReceived g false)
              ++ .dataReceived d fin :: post) ⟨acc ++ f, mx⟩ := by
      simp [read_messages_events, WebsocketBuffer.extend, hfit]
    rw [List.map_cons, List.cons_append, hstep,
      ih (acc ++ f) mx d fin post (by rw [List.length_append]; omega)
        (by rw [List.length_append]; omega)]
    simp [List.append_assoc]

/-- Claim C8: feeding data frames whose cumulative payload exceeds the
configured maximum makes the buffer's `extend` fail exactly on the frame
that crosses the threshold — the events after it are left unprocessed,
whether or not the crossing frame is final — whereupon the read loop
closes the connection with code 1009, enqueues a disconnect event, and
never delivers the partially assembled message. -/
theorem ws_frame_too_large (mx : Nat) (front : List (List Nat)) (d : List Nat)
    (fin : Bool) (post : List WsprotoEvent)
    (hok : (front.map List.length).sum ≤ mx)
    (hcross : mx < (front.map List.length).sum + d.length) :
    (read_messages_events
        (front.map (fun f => WsprotoEvent.dataReceived f false)
          ++ .dataReceived d fin :: post) ⟨[], mx⟩)
      = ([.closeConn 1009, .enqueueDisconnect], ⟨front.flatten, mx⟩, true, post)
    ∧ ∀ m, WSAction.enqueueMessage m
        ∉ (read_messages_events
            (front.map (fun f => WsprotoEvent.dataReceived f false)
              ++ .dataReceived d fin :: post) ⟨[], mx⟩).1 := by
  have h := read_messages_too_large_aux front [] mx d fin post (by simpa using hok)
    (by simpa using hcross)
  simp only [List.nil_append] at h
  refine ⟨h, ?_⟩
  intro m
  rw [h]
  simp

/-- Witness for C8: maximum size 4, a 3-byte frame buffered, then a
2-byte frame crossing the threshold (itself marked final) with a further
unprocessed event behind it. -/
theorem ws_frame_too_large_witness :
    ((List.map List.length [[1, 2, 3]]).sum ≤ 4
      ∧ 4 < (List.map List.length [[1, 2, 3]]).sum + [9, 9].length)
    ∧ ((read_messages_events
          ([[1, 2, 3]].map (fun f => WsprotoEvent.dataReceived f false)
            ++ .dataReceived [9, 9] true :: [.otherEvent]) ⟨[], 4⟩)
        = ([.closeConn 1009, .enqueueDisconnect], ⟨[[1, 2, 3]].flatten, 4⟩, true, [.otherEvent])
      ∧ ∀ m, WSAction.enqueueMessage m
          ∉ (read_messages_events
              ([[1, 2, 3]].map (fun f => WsprotoEvent.dataReceived f false)
                ++ .dataReceived [9, 9] true :: [.otherEvent]) ⟨[], 4⟩).1) :=
  ⟨⟨by decide, by decide⟩,
    ws_frame_too_large 4 [[1, 2, 3]] [9, 9] true [.otherEvent] (by decide) (by decide)⟩

/-! ## Pipelining: dispatch order and flushing -/

theorem loop_one_cycle (r : RequestData) (hr : ws_upgrade_request r = false)
    (tail : List ParseResult) (os : WireState) (nok : Bool) (st : ProtoState) :
    handle_events_loop (.ok (.request r) :: .ok .endOfMessage :: tail) false os nok st
      = ((handle_events_loop tail false os nok { st with stream := some .http }).1,
         .toStream (delivered_request r) :: .toStream .endBody
           :: (handle_events_loop tail false os nok { st with stream := some .http }).2) := by
  simp only [handle_events_loop, hr, Bool.false_eq_true, if_false, pre100effects,
    List.nil_append]

theorem one_round (script : List ParseResult) (g : Bool) (re sc : Option Unit) (n : Nat) :
    respond_rounds (n + 1) ⟨.http ⟨script, false, .idle, true⟩, g, some .http, re, sc⟩
      = ((respond_rounds n (handle_events_loop script false .idle true
            ⟨.http ⟨script, false, .idle, true⟩, true, none, none, none⟩).1).1,
         resp_fx ++ .toStream .streamClosed :: .gateSet
           :: ((handle_events_loop script false .idle true
                ⟨.http ⟨script, false, .idle, true⟩, true, none, none, none⟩).2
              ++ .updated
              :: (respond_rounds n (handle_events_loop script false .idle true
                  ⟨.http ⟨script, false, .idle, true⟩, true, none, none, none⟩).1).2)) := by
  simp [respond_rounds, stream_send, send_h11_event, Conn.send, HttpConn.send,
    maybe_recycle, close_stream, handle_events, resp_fx]

theorem respond_rounds_trace (rs' : List RequestData) :
    ∀ (g : Bool) (re sc : Option Unit),
    (∀ r ∈ rs', ws_upgrade_request r = false) →
    respond_rounds (rs'.length + 1)
        ⟨.http ⟨pipe_script rs', false, .idle, true⟩, g, some .http, re, sc⟩
      = (⟨.http ⟨[], false, .idle, true⟩, true, none, none, none⟩, expected_rounds rs') := by
  induction rs' with
  | nil =>
    intro g re sc _
    cases g <;> rcases re with _ | ⟨⟨⟩⟩ <;> rcases sc with _ | ⟨⟨⟩⟩ <;> decide
  | cons r rest ih =>
    intro g re sc hws
    have hr : ws_upgrade_request r = false := hws r (by simp)
    have hrest : ∀ x ∈ rest, ws_upgrade_request x = false := fun x hx => hws x (by simp [hx])
    have hlen : (r :: rest).length + 1 = rest.length + 1 + 1 := by simp
    rw [hlen, one_round]
    rcases rest with _ | ⟨r2, rest2⟩
    · have hloop : handle_events_loop (pipe_script [r]) false .idle true
          ⟨.http ⟨pipe_script [r], false, .idle, true⟩, true, none, none, none⟩
          = (⟨.http ⟨pipe_script [], false, .idle, true⟩, true, some .http, none, none⟩,
             [.toStream (delivered_request r), .toStream .endBody]) := by
        show handle_events_loop (.ok (.request r) :: .ok .endOfMessage :: []) false .idle true
            _ = _
        rw [loop_one_cycle r hr]
        rfl
      rw [hloop, ih true none none (by simp)]
      simp [expected_rounds, pause_fx]
    · have hloop : handle_events_loop (pipe_script (r :: r2 :: rest2)) false .idle true
          ⟨.http ⟨pipe_script (r :: r2 :: rest2), false, .idle, true⟩, true, none, none, none⟩
          = (⟨.http ⟨pipe_script (r2 :: rest2), false, .idle, true⟩, false, some .http,
              none, none⟩,
             [.toStream (delivered_request r), .toStream .endBody, .gateClear, .gateWait]) := by
        show handle_events_loop
            (.ok (.request r) :: .ok .endOfMessage :: .ok .paused :: pipe_script (r2 :: rest2))
            false .idle true _ = _
        rw [loop_one_cycle r hr]
        rfl
      rw [hloop, ih false none none hrest]
      simp [expected_rounds, pause_fx]

theorem pipelined_run_trace (rs : List RequestData)
    (hws : ∀ r ∈ rs, ws_upgrade_request r = false) :
    (pipelined_run rs).2 = expected_pipeline rs := by
  rcases rs with _ | ⟨r, rest⟩
  · decide
  · have hr : ws_upgrade_request r = false := hws r (by simp)
    have hrest : ∀ x ∈ rest, ws_upgrade_request x = false := fun x hx => hws x (by simp [hx])
    have hinit : handle_events (init_state (pipe_script (r :: rest)))
        = (⟨.http ⟨pipe_script rest, false, .idle, true⟩, false, some .http, none, none⟩,
           .toStream (delivered_request r) :: .toStream .endBody :: pause_fx rest) := by
      rcases rest with _ | ⟨r2, rest2⟩
      · show handle_events_loop (.ok (.request r) :: .ok .endOfMessage :: []) false .idle true
            (init_state (pipe_script [r])) = _
        rw [loop_one_cycle r hr]
        rfl
      · show handle_events_loop
            (.ok (.request r) :: .ok .endOfMessage :: .ok .paused :: pipe_script (r2 :: rest2))
            false .idle true (init_state (pipe_script (r :: r2 :: rest2))) = _
        rw [loop_one_cycle r hr]
        rfl
    show (handle_events (init_state (pipe_script (r :: rest)))).2
        ++ (respond_rounds (r :: rest).length
            (handle_events (init_state (pipe_script (r :: rest)))).1).2
      = expected_pipeline (r :: rest)
    rw [hinit]
    have hlen : (r :: rest).length = rest.length + 1 := by simp
    rw [hlen, respond_rounds_trace rest false none none hrest]
    simp [expected_pipeline]

theorem request_dispatches_append (A B : List Effect) :
    request_dispatches (A ++ B) = request_dispatches A ++ request_dispatches B := by
  unfold request_dispatches
  rw [List.filterMap_append]

theorem dispatches_pause (l : List RequestData) :
    request_dispatches (pause_fx l) = [] := by
  cases l <;> rfl

theorem dispatches_rounds (rest : List RequestData) :
    request_dispatches (expected_rounds rest)
      = rest.map (fun r => delivered_request r) := by
  induction rest with
  | nil => rfl
  | cons r2 rest2 ih =>
    rw [expected_rounds, request_dispatches_append, ih]
    have hX : request_dispatches
        (resp_fx
          ++ [.toStream .streamClosed, .gateSet, .toStream (delivered_request r2),
              .toStream .endBody]
          ++ pause_fx rest2 ++ [.updated])
        = [delivered_request r2] := by
      rcases rest2 with _ | ⟨a, b⟩ <;>
        simp [request_dispatches, resp_fx, pause_fx, delivered_request]
    rw [hX]
    simp

theorem count_dispatch_cons (x : Effect) (t : List Effect) :
    count_dispatch (x :: t) = dispatch_weight x + count_dispatch t := by
  rcases x with ⟨e⟩ | ⟨d⟩ | _ | _ | ⟨e⟩ | _ | _ | _
  case toStream =>
    rcases e <;> simp [count_dispatch, request_dispatches, dispatch_weight, List.filterMap_cons]
    all_goals omega
  all_goals
    simp [count_dispatch, request_dispatches, dispatch_weight, List.filterMap_cons]

theorem count_eom_cons (x : Effect) (t : List Effect) :
    count_eom (x :: t) = eom_weight x + count_eom t := by
  rcases x with ⟨e⟩ | ⟨d⟩ | _ | _ | ⟨e⟩ | _ | _ | _
  case rawData =>
    rcases e <;> simp [count_eom, eom_weight, List.filter_cons]
    all_goals omega
  all_goals
    simp [count_eom, eom_weight, List.filter_cons]

theorem pref_ok_take (T : List Effect) :
    ∀ (d e : Nat), pref_ok d e T →
    ∀ n, d + count_dispatch (T.take n) ≤ e + count_eom (T.take n) + 1 := by
  induction T with
  | nil =>
    intro d e h n
    have h2 : d ≤ e + 1 := h
    simp only [List.take_nil]
    have hc : count_dispatch ([] : List Effect) = 0 := rfl
    have he : count_eom ([] : List Effect) = 0 := rfl
    omega
  | cons x t ih =>
    intro d e h n
    have h1 : d ≤ e + 1 := h.1
    cases n with
    | zero =>
      have hc : count_dispatch ([] : List Effect) = 0 := rfl
      have he : count_eom ([] : List Effect) = 0 := rfl
      simp only [List.take_zero]
      omega
    | succ m =>
      rw [List.take_succ_cons, count_dispatch_cons, count_eom_cons]
      have h2 := ih (d + dispatch_weight x) (e + eom_weight x) h.2 m
      omega

theorem pref_ok_append (A : List Effect) :
    ∀ (B : List Effect) (d e : Nat), pref_ok d e A →
    pref_ok (d + count_dispatch A) (e + count_eom A) B → pref_ok d e (A ++ B) := by
  induction A with
  | nil =>
    intro B d e _ h2
    have hc : count_dispatch ([] : List Effect) = 0 := rfl
    have he : count_eom ([] : List Effect) = 0 := rfl
    rw [hc, he] at h2
    simpa using h2
  | cons x t ih =>
    intro B d e h1 h2
    refine ⟨h1.1, ?_⟩
    apply ih B _ _ h1.2
    rw [count_dispatch_cons, count_eom_cons, ← Nat.add_assoc, ← Nat.add_assoc] at h2
    exact h2

theorem pref_ok_expected_rounds (rest : List RequestData) :
    ∀ k, pref_ok (k + 1) k (expected_rounds rest) := by
  induction rest with
  | nil =>
    intro k
    simp only [expected_rounds, resp_fx, List.cons_append, List.nil_append, pref_ok,
      dispatch_weight, eom_weight]
    omega
  | cons r2 rest2 ih =>
    intro k
    rw [expected_rounds]
    apply pref_ok_append
    · rcases rest2 with _ | ⟨a, b⟩ <;>
        · simp only [resp_fx, pause_fx, List.cons_append, List.nil_append, List.append_nil,
            pref_ok, dispatch_weight, eom_weight, delivered_request]
          omega
    · have hd : count_dispatch
          (resp_fx
            ++ [.toStream .streamClosed, .gateSet, .toStream (delivered_request r2),
                .toStream .endBody]
            ++ pause_fx rest2 ++ [.updated]) = 1 := by
        rcases rest2 with _ | ⟨a, b⟩ <;>
          simp [count_dispatch, request_dispatches, resp_fx, pause_fx, delivered_request]
      have he : count_eom
          (resp_fx
            ++ [.toStream .streamClosed, .gateSet, .toStream (delivered_request r2),
                .toStream .endBody]
            ++ pause_fx rest2 ++ [.updated]) = 1 := by
        rcases rest2 with _ | ⟨a, b⟩ <;> simp [count_eom, resp_fx, pause_fx]
      rw [hd, he]
      exact ih (k + 1)

theorem pref_ok_expected_pipeline (rs : List RequestData) :
    pref_ok 0 0 (expected_pipeline rs) := by
  rcases rs with _ | ⟨r, rest⟩
  · show (0 : Nat) ≤ 0 + 1
    omega
  · rw [expected_pipeline]
    refine ⟨by omega, ?_, ?_⟩
    · show (0 : Nat) + 1 ≤ 0 + 0 + 1
      omega
    show pref_ok (0 + 1 + 0) (0 + 0 + 0) (pause_fx rest ++ expected_rounds rest)
    apply pref_ok_append
    · rcases rest with _ | ⟨a, b⟩ <;>
        · simp only [pause_fx, pref_ok, dispatch_weight, eom_weight]
          omega
    · have hd : count_dispatch (pause_fx rest) = 0 := by
        rcases rest with _ | ⟨a, b⟩ <;> rfl
      have he : count_eom (pause_fx rest) = 0 := by
        rcases rest with _ | ⟨a, b⟩ <;> rfl
      rw [hd, he]
      have := pref_ok_expected_rounds rest 0
      simpa using this

/-- Claim C7: a pipelined run over `N` framed requests dispatches
exactly `N` request events to the application in arrival order; the
drain loop reacts to `PAUSED` by clearing the readiness gate and
suspending (visible as the `gateClear`/`gateWait` effects preceding each
later dispatch in the expected trace), and parsing resumes only from the
recycle path after the previous response's `EndOfMessage` has been
serialized: in every prefix of the trace the number of dispatched
requests never exceeds the number of serialized `EndOfMessage`s plus
one. -/
theorem pipelined_dispatch_order (rs : List RequestData)
    (hws : ∀ r ∈ rs, ws_upgrade_request r = false) :
    (pipelined_run rs).2 = expected_pipeline rs
    ∧ request_dispatches (pipelined_run rs).2 = rs.map (fun r => delivered_request r)
    ∧ ∀ n, count_dispatch ((pipelined_run rs).2.take n)
        ≤ count_eom ((pipelined_run rs).2.take n) + 1 := by
  have htrace := pipelined_run_trace rs hws
  refine ⟨htrace, ?_, ?_⟩
  · rw [htrace]
    rcases rs with _ | ⟨r, rest⟩
    · rfl
    · rw [expected_pipeline]
      have h1 : request_dispatches
          (.toStream (delivered_request r) :: .toStream .endBody
            :: (pause_fx rest ++ expected_rounds rest))
          = delivered_request r
              :: request_dispatches (pause_fx rest ++ expected_rounds rest) := by
        simp [request_dispatches, List.filterMap_cons, delivered_request]
      rw [h1, request_dispatches_append, dispatches_pause, dispatches_rounds]
      simp
  · intro n
    rw [htrace]
    have h := pref_ok_take (expected_pipeline rs) 0 0 (pref_ok_expected_pipeline rs) n
    omega

/-- Witness for C7: two pipelined requests are dispatched in order with
the expected trace. -/
theorem pipelined_dispatch_order_witness :
    (∀ r ∈ [rPlain, rPost], ws_upgrade_request r = false)
    ∧ ((pipelined_run [rPlain, rPost]).2 = expected_pipeline [rPlain, rPost]
      ∧ request_dispatches (pipelined_run [rPlain, rPost]).2
          = [rPlain, rPost].map (fun r => delivered_request r)
      ∧ ∀ n, count_dispatch ((pipelined_run [rPlain, rPost]).2.take n)
          ≤ count_eom ((pipelined_run [rPlain, rPost]).2.take n) + 1) :=
  ⟨by decide, pipelined_dispatch_order [rPlain, rPost] (by decide)⟩

end Hypercorn
